import Mathlib

/-!
Verification of the bisemantic repository's natural-language specification
against a shallow embedding of its code.

The repository snapshot contains `bisemantic/console.py` (the command-line
interface, data loading, column fix-up, training-history bookkeeping) and its
test suite.  The modules `bisemantic/data.py` (the batching/padding generator
and the cross-validation partitioning routine) and `bisemantic/main.py` (the
neural model) are referenced by the console and the tests but are not in the
snapshot; those parts are modelled from the specification's words and are
marked `Modelled from the spec:` below.
-/

namespace Bisemantic

/-! ## Column-name constants (from the `bisemantic` package: `text_1`, `text_2`, `label`) -/

def text_1 : String := "text1"

def text_2 : String := "text2"

def label : String := "label"

/-! ## Data frames

A data frame is embedded as an ordered list of column names together with an
ordered list of rows; a cell is `Option String`, `none` standing for a null
value (pandas `NaN`). -/

structure DataFrame where
  columns : List String
  rows : List (List (Option String))
deriving DecidableEq

/-- Embedding of `console.data_file` after the external CSV read: pandas
`read_csv` (an excluded external collaborator) yields the raw frame, and the
repository's own code applies `dropna()`, dropping every row that has a null
value in any column and keeping the rest in order. -/
def data_file (raw : DataFrame) : DataFrame :=
  { raw with rows := raw.rows.filter (fun r => r.all Option.isSome) }

/-! ## Column fix-up (`console.fix_columns`) -/

/-- The two ways `fix_columns` can fail: the explicit
`raise ValueError("Missing column %s" % name)` on a supplied column name that
is absent, and the pandas `KeyError` raised by `data[columns]` when a selected
column is not present after renaming. -/
inductive FixColumnsError where
  | valueError (name : String)
  | keyError
deriving DecidableEq

/-- The column-rename command-line arguments shared by all subcommands:
`--text-1-name`, `--text-2-name`, `--label-name`. -/
structure ColumnArgs where
  text_1_name : Option String
  text_2_name : Option String
  label_name : Option String
deriving DecidableEq

/-- The non-`None` column names supplied on the command line, in the order the
source's `for name in [args.text_1_name, args.text_2_name, args.label_name]`
loop visits them. -/
def supplied_names (a : ColumnArgs) : List String :=
  [a.text_1_name, a.text_2_name, a.label_name].filterMap id

/-- The rename dictionary
`{args.text_1_name: text_1, args.text_2_name: text_2, args.label_name: label}`
as an association list; `None` keys never match a string column name and are
dropped.  Python dict literals let a later duplicate key win, which
`rename_column` honours by searching the reversed list. -/
def rename_pairs (a : ColumnArgs) : List (String × String) :=
  (match a.text_1_name with | some n => [(n, text_1)] | none => [])
    ++ (match a.text_2_name with | some n => [(n, text_2)] | none => [])
    ++ (match a.label_name with | some n => [(n, label)] | none => [])

/-- Apply the rename dictionary to one column name (later binding wins). -/
def rename_column (ps : List (String × String)) (c : String) : String :=
  match ps.reverse.find? (fun p => p.1 == c) with
  | some p => p.2
  | none => c

/-- The first supplied column name that is missing from the frame, if any:
the source raises `ValueError` on it. -/
def missing_required_column (df : DataFrame) (a : ColumnArgs) : Option String :=
  (supplied_names a).find? (fun n => decide (n ∉ df.columns))

/-- The column names of the frame after applying the rename dictionary. -/
def renamed_columns (df : DataFrame) (a : ColumnArgs) : List String :=
  df.columns.map (rename_column (rename_pairs a))

/-- The column selection `data[columns]`: keep exactly the requested columns in
the requested order, reading each cell through the (first) index of its column;
pandas raises `KeyError` when a requested column is absent. -/
def select_columns (df : DataFrame) (sel : List String) : Except FixColumnsError DataFrame :=
  if sel.all (fun c => decide (c ∈ df.columns)) then
    .ok { columns := sel
        , rows := df.rows.map (fun r => sel.map (fun c =>
            match df.columns.findIdx? (fun x => x == c) with
            | some i => r.getD i none
            | none => none)) }
  else .error .keyError

/-- Embedding of `console.fix_columns`: check that every supplied column name
exists (else `ValueError`), rename columns to `text1`/`text2`/`label`, then
keep `[text1, text2, label]` when a `label` column is present and
`[text1, text2]` otherwise. -/
def fix_columns (df : DataFrame) (a : ColumnArgs) : Except FixColumnsError DataFrame :=
  match missing_required_column df a with
  | some n => .error (.valueError n)
  | none =>
    let renamed : DataFrame := { df with columns := renamed_columns df a }
    let sel := if label ∈ renamed.columns then [text_1, text_2, label] else [text_1, text_2]
    select_columns renamed sel

/-! ## The command-line interface (`console.create_argument_parser`) -/

/-- The actions a console invocation can dispatch to: the four subcommand
handlers set by `set_defaults(func=...)`, and the top-level default
`lambda _: parser.print_usage()`. -/
inductive ConsoleAction where
  | trainAction
  | continueAction
  | predictAction
  | crossValidationAction
  | printUsage
deriving DecidableEq

/-- The argument-parsing configuration built by `console.create_argument_parser`:
the subcommand table in source order, and the default action installed at the
top level. -/
structure CommandLineInterface where
  subcommands : List (String × ConsoleAction)
  default : ConsoleAction
deriving DecidableEq

/-- Embedding of `console.create_argument_parser`: subparsers `train`,
`continue`, `predict` and `cross-validation` are added in that order, each
bound to its handler, and the parser's default `func` prints usage. -/
def create_argument_parser_config : CommandLineInterface :=
  { subcommands :=
      [ ("train", .trainAction)
      , ("continue", .continueAction)
      , ("predict", .predictAction)
      , ("cross-validation", .crossValidationAction) ]
  , default := .printUsage }

/-- Dispatch of `console.main`: with no subcommand the default action runs;
with a subcommand its bound handler runs. -/
def run_console (cli : CommandLineInterface) (sub : Option String) : ConsoleAction :=
  match sub with
  | none => cli.default
  | some name => ((cli.subcommands.find? (fun p => p.1 == name)).map Prod.snd).getD cli.default

/-! ## Training history (`console.TrainingHistory`) -/

/-- JSON documents, the values `json.dump`/`json.load` (excluded external
collaborators) exchange with the training-history file. -/
inductive Json where
  | str (s : String)
  | num (n : Int)
  | arr (elems : List Json)
  | obj (fields : List (String × Json))

/-- Record of all the training runs made on a given model (class
`TrainingHistory`); `runs` is the list of per-run JSON records. -/
structure TrainingHistory where
  runs : List Json

/-- Embedding of `TrainingHistory.__init__`'s `self.runs = runs or []`:
a falsy (empty) argument is replaced by a fresh empty list. -/
def TrainingHistory.ofRuns (rs : List Json) : TrainingHistory :=
  { runs := if rs.isEmpty then [] else rs }

/-- Embedding of `TrainingHistory.save`: the JSON document `json.dump` writes
to the file is the list of runs. -/
def TrainingHistory.save (h : TrainingHistory) : Json :=
  Json.arr h.runs

/-- Embedding of `TrainingHistory.load`: `cls(json.load(f))` passes the parsed
document to the constructor.  A document written by `save` is always an
array. -/
def TrainingHistory.load (doc : Json) : TrainingHistory :=
  match doc with
  | Json.arr rs => TrainingHistory.ofRuns rs
  | _ => TrainingHistory.ofRuns []

/-- Embedding of `TrainingHistory.add_run`: appends one record holding the
training time, sample count, per-epoch history and run date. -/
def TrainingHistory.add_run (h : TrainingHistory) (training_time : String) (samples : Int)
    (history : Json) (run_date : String) : TrainingHistory :=
  { runs := h.runs ++
      [Json.obj
        [ ("training-time", Json.str training_time)
        , ("samples", Json.num samples)
        , ("history", history)
        , ("run-date", Json.str run_date) ]] }

/-! ## The batching/padding generator (`bisemantic/data.py`, not in the snapshot)

Modelled from the spec: `bisemantic/data.py` is missing from the repository
snapshot; the spec describes its `UniformLengthEmbeddingGenerator` as "the
batching/padding generator that groups same-length sequences to minimize
wasted padding" using the technique "sort-or-bucket by length, pad within
bucket, cycle for multiple epochs".  The word-embedding parser is an excluded
external collaborator (text to per-token vector sequence); a token's vector is
modelled by its token identifier. -/

/-- A data sample: the two token sequences of a text pair and an optional
label. -/
structure Sample where
  text1 : List Nat
  text2 : List Nat
  label : Option Nat
deriving DecidableEq

/-- The length of a paired sample: the number of tokens to which each of its
two sequences is padded, the longer of the two. -/
def sampleLength (s : Sample) : Nat := max s.text1.length s.text2.length

/-- The generator's batch size (the test suite observes batches of 32). -/
def batch_size : Nat := 32

/-- Modelled from the spec: bucket the data by sample length, each bucket
keeping its samples in input order; buckets appear in order of first
occurrence of their length. -/
def buckets (d : List Sample) : List (List Sample) :=
  ((d.map sampleLength).dedup).map (fun l => d.filter (fun s => decide (sampleLength s = l)))

/-- Split a list into consecutive chunks of at most `n` elements; `fuel`
bounds the recursion and is instantiated with the list's length. -/
def chunksGo {α : Type} : Nat → Nat → List α → List (List α)
  | 0, _, _ => []
  | _ + 1, _, [] => []
  | fuel + 1, n, x :: t => ((x :: t).take n) :: chunksGo fuel n ((x :: t).drop n)

/-- Consecutive chunks of at most `n` elements. -/
def chunksOf {α : Type} (n : Nat) (xs : List α) : List (List α) :=
  chunksGo xs.length n xs

/-- Modelled from the spec: one epoch's groups, each bucket cut into batches
of at most `batch_size` same-length samples. -/
def epochGroups (d : List Sample) : List (List Sample) :=
  ((buckets d).map (chunksOf batch_size)).flatten

/-- The width a group of samples is padded to: the largest sample length in
the group. -/
def batchWidth (g : List Sample) : Nat :=
  g.foldr (fun s w => max (sampleLength s) w) 0

/-- Pad a token sequence on the right with null tokens up to width `w`. -/
def padTo (w : Nat) (xs : List Nat) : List Nat :=
  xs ++ List.replicate (w - xs.length) 0

/-- One batch as the generator yields it: two embedding arrays of shape
(batch size, width) and, for labeled data, the label vector. -/
structure EmbeddingBatch where
  width : Nat
  emb1 : List (List Nat)
  emb2 : List (List Nat)
  labels : Option (List Nat)
deriving DecidableEq

/-- Modelled from the spec: pad a same-length group into a batch; labels are
emitted when every sample carries one. -/
def padBatch (g : List Sample) : EmbeddingBatch :=
  { width := batchWidth g
  , emb1 := g.map (fun s => padTo (batchWidth g) s.text1)
  , emb2 := g.map (fun s => padTo (batchWidth g) s.text2)
  , labels :=
      if g.all (fun s => s.label.isSome) then some (g.map (fun s => s.label.getD 0))
      else none }

/-- Modelled from the spec: the batches of one epoch. -/
def epochBatches (d : List Sample) : List EmbeddingBatch :=
  (epochGroups d).map padBatch

/-- Modelled from the spec: the generator cycles for multiple epochs, the
i-th batch it yields being batch `i mod (batches per epoch)` of the epoch. -/
def generatorBatch (d : List Sample) (i : Nat) : EmbeddingBatch :=
  (epochBatches d).getD (i % (epochBatches d).length) ⟨0, [], [], none⟩

/-- The proposition claim C3 asserts of the repository: none of its own code
batches sequences together (every yielded batch would hold at most one
sample) and none of its own code pads sequences (every yielded sequence would
be an input sequence unchanged). -/
def frameworkOnlyBatchingAndPadding : Prop :=
  (∀ d : List Sample, ∀ b ∈ epochBatches d, b.emb1.length ≤ 1)
    ∧ (∀ d : List Sample, ∀ b ∈ epochBatches d, ∀ e ∈ b.emb1, ∃ s ∈ d, e = s.text1)

/-! ## Cross-validation partitioning (`bisemantic/data.py`, not in the snapshot)

Modelled from the spec: `cross_validation_partitions` is called by the console
(`create_cross_validation_partitions`, and `train_or_continue` for
`--validation-fraction`) but its module is missing from the snapshot.  The
spec promises "reproducible cross-validation splits": each of the `k` splits
shuffles the data with a pseudo-random permutation seeded by the split index
alone, so the ambient random state of the process has no influence. -/

/-- A linear congruential step, the pseudo-random number generator driving the
modelled shuffle. -/
def lcgStep (s : Nat) : Nat := (1103515245 * s + 12345) % 2147483648

/-- Remove the element at index `i`. -/
def removeAt {α : Type} (xs : List α) (i : Nat) : List α :=
  xs.take i ++ xs.drop (i + 1)

/-- Seeded selection shuffle; `fuel` bounds the recursion and is instantiated
with the list's length. -/
def shuffleGo {α : Type} : Nat → Nat → List α → List α
  | 0, _, xs => xs
  | _ + 1, _, [] => []
  | fuel + 1, s, x :: t =>
      let s2 := lcgStep s
      let i := s2 % (x :: t).length
      (x :: t).getD i x :: shuffleGo fuel s2 (removeAt (x :: t) i)

/-- Deterministic shuffle of a list under a seed. -/
def shuffle {α : Type} (seed : Nat) (xs : List α) : List α :=
  shuffleGo xs.length seed xs

set_option linter.unusedVariables false in
/-- Modelled from the spec: `cross_validation_partitions(data, fraction, k)`
returns `k` (train, validate) pairs; split `i` shuffles the data with the
fixed seed `i` (a fixed `random_state`, which is what makes the splits
reproducible) and cuts it at `floor(fraction * len(data))`.  The
`ambient_seed` argument stands for the process's ambient random state, which
the routine deliberately ignores. -/
def cross_validation_partitions {α : Type} (ambient_seed : Nat) (data : List α)
    (fraction : ℚ) (k : Nat) : List (List α × List α) :=
  (List.range k).map (fun i =>
    let shuffled := shuffle i data
    let n := (⌊fraction * (data.length : ℚ)⌋).toNat
    (shuffled.take n, shuffled.drop n))

/-! ## Prediction (`bisemantic/main.py`, not in the snapshot) -/

/-- Modelled from the spec: `TextualEquivalenceModel` (in the missing
`bisemantic/main.py`) is a trained classifier deciding whether two token
sequences are semantically equivalent. -/
structure TextualEquivalenceModel where
  equivalent : List Nat → List Nat → Bool

/-- Modelled from the spec: `TextualEquivalenceModel.predict` maps each test
text pair to an equivalence label, 1 for equivalent and 0 for not. -/
def TextualEquivalenceModel.predict (m : TextualEquivalenceModel)
    (test : List (List Nat × List Nat)) : List Nat :=
  test.map (fun p => if m.equivalent p.1 p.2 then 1 else 0)

/-! ## Theorems -/

/-- C4: the command-line interface provides exactly the four operations
`train`, `continue`, `predict` and `cross-validation`, in that order, each
bound to its own handler; invoking the program with no subcommand dispatches
to none of them and only prints usage. -/
theorem console_provides_exactly_four_operations :
    create_argument_parser_config.subcommands.map Prod.fst
        = ["train", "continue", "predict", "cross-validation"]
      ∧ create_argument_parser_config.subcommands.map Prod.snd
        = [ConsoleAction.trainAction, ConsoleAction.continueAction,
            ConsoleAction.predictAction, ConsoleAction.crossValidationAction]
      ∧ run_console create_argument_parser_config none = ConsoleAction.printUsage
      ∧ ∀ p ∈ create_argument_parser_config.subcommands, p.2 ≠ ConsoleAction.printUsage := by
  refine ⟨rfl, rfl, rfl, ?_⟩
  decide

/-- C8: `data_file` keeps the columns, drops every row that has a null value
in any cell, keeps every row without one, and preserves the original order of
the remaining rows. -/
theorem data_file_drops_null_rows (raw : DataFrame) :
    (data_file raw).columns = raw.columns
      ∧ (data_file raw).rows.Sublist raw.rows
      ∧ (∀ r ∈ (data_file raw).rows, ∀ c ∈ r, c ≠ none)
      ∧ (∀ r ∈ raw.rows, (∀ c ∈ r, c ≠ none) → r ∈ (data_file raw).rows) := by
  refine ⟨rfl, List.filter_sublist raw.rows, ?_, ?_⟩
  · intro r hr c hc
    have hall := (List.mem_filter.mp hr).2
    have := (List.all_eq_true.mp hall) c hc
    exact Option.isSome_iff_ne_none.mp this
  · intro r hr hnone
    refine List.mem_filter.mpr ⟨hr, List.all_eq_true.mpr ?_⟩
    intro c hc
    exact Option.isSome_iff_ne_none.mpr (hnone c hc)

/-- C10: a training history round-trips through `save` and `load` with an
equal list of runs, and `add_run` appends exactly one run while leaving all
previously recorded runs unchanged. -/
theorem training_history_roundtrip_and_add_run (h : TrainingHistory) (t : String) (s : Int)
    (hist : Json) (d : String) :
    (TrainingHistory.load (TrainingHistory.save h)).runs = h.runs
      ∧ (h.add_run t s hist d).runs.length = h.runs.length + 1
      ∧ (h.add_run t s hist d).runs.take h.runs.length = h.runs := by
  refine ⟨?_, ?_, ?_⟩
  · show (TrainingHistory.ofRuns h.runs).runs = h.runs
    simp only [TrainingHistory.ofRuns]
    split
    · next he => rw [List.isEmpty_iff.mp he]
    · rfl
  · simp [TrainingHistory.add_run]
  · simp only [TrainingHistory.add_run]
    exact List.take_left h.runs _

/-- C5: prediction decides semantic equivalence of text pairs: `predict`
returns exactly one label per test pair and every returned label is 0 or 1. -/
theorem predict_one_binary_label_per_pair (m : TextualEquivalenceModel)
    (test : List (List Nat × List Nat)) :
    (m.predict test).length = test.length
      ∧ ∀ l ∈ m.predict test, l = 0 ∨ l = 1 := by
  constructor
  · simp [TextualEquivalenceModel.predict]
  · intro l hl
    simp only [TextualEquivalenceModel.predict, List.mem_map] at hl
    obtain ⟨p, _, hp⟩ := hl
    by_cases hq : m.equivalent p.1 p.2 = true <;> simp [hq] at hp <;> omega

/-- C6: cross-validation splits are reproducible: two runs on the same data
frame with the same fraction and the same number of splits yield identical
lists of (train, validate) partitions, whatever the ambient random state of
each run; and there are k of them. -/
theorem cross_validation_reproducible {α : Type} (s1 s2 : Nat) (data : List α)
    (fraction : ℚ) (k : Nat) :
    cross_validation_partitions s1 data fraction k
        = cross_validation_partitions s2 data fraction k
      ∧ (cross_validation_partitions s1 data fraction k).length = k :=
  ⟨rfl, by simp [cross_validation_partitions]⟩

/-- Elements of a chunk produced by `chunksGo` are elements of the input
list. -/
theorem mem_of_mem_chunksGo {α : Type} :
    ∀ (fuel n : Nat) (xs c : List α), c ∈ chunksGo fuel n xs → ∀ x ∈ c, x ∈ xs := by
  intro fuel
  induction fuel with
  | zero => intro n xs c hc; simp [chunksGo] at hc
  | succ fuel ih =>
    intro n xs c hc x hx
    cases xs with
    | nil => simp [chunksGo] at hc
    | cons y t =>
      rw [chunksGo] at hc
      rcases List.mem_cons.mp hc with h | h
      · subst h; exact List.take_subset n (y :: t) hx
      · exact List.drop_subset n (y :: t) (ih n _ c h x hx)

/-- A chunk of a list is a subset of it. -/
theorem subset_of_mem_chunksOf {α : Type} (n : Nat) (xs c : List α)
    (hc : c ∈ chunksOf n xs) : c ⊆ xs := by
  intro x hx
  exact mem_of_mem_chunksGo xs.length n xs c hc x hx

/-- Every bucket is the sub-frame of the samples of one length. -/
theorem mem_buckets (d : List Sample) (b : List Sample) (hb : b ∈ buckets d) :
    ∃ l, b = d.filter (fun s => decide (sampleLength s = l)) := by
  simp only [buckets, List.mem_map] at hb
  obtain ⟨l, _, rfl⟩ := hb
  exact ⟨l, rfl⟩

/-- All samples in one epoch group have the same length. -/
theorem epochGroups_homogeneous (d : List Sample) (g : List Sample)
    (hg : g ∈ epochGroups d) : ∃ l, ∀ s ∈ g, sampleLength s = l := by
  simp only [epochGroups, List.mem_flatten, List.mem_map] at hg
  obtain ⟨gs, ⟨b, hb, rfl⟩, hgg⟩ := hg
  obtain ⟨l, rfl⟩ := mem_buckets d b hb
  refine ⟨l, fun s hs => ?_⟩
  have hsb := subset_of_mem_chunksOf batch_size _ g hgg hs
  exact of_decide_eq_true (List.mem_filter.mp hsb).2

/-- Unfolding `batchWidth` on a cons cell. -/
theorem batchWidth_cons (a : Sample) (t : List Sample) :
    batchWidth (a :: t) = max (sampleLength a) (batchWidth t) := rfl

/-- The width of a nonempty group of same-length samples is that length. -/
theorem batchWidth_of_homogeneous (g : List Sample) (l : Nat)
    (hall : ∀ s ∈ g, sampleLength s = l) (hne : g ≠ []) : batchWidth g = l := by
  induction g with
  | nil => exact absurd rfl hne
  | cons a t ih =>
    rw [batchWidth_cons, hall a (List.mem_cons_self a t)]
    cases t with
    | nil => simp [batchWidth]
    | cons b u =>
      rw [ih (fun s hs => hall s (List.mem_cons_of_mem a hs)) (List.cons_ne_nil b u)]
      exact Nat.max_self l

/-- The length of a sequence padded to a width at least its length. -/
theorem padTo_length (w : Nat) (xs : List Nat) (h : xs.length ≤ w) :
    (padTo w xs).length = w := by
  simp only [padTo, List.length_append, List.length_replicate]
  omega

/-- C1: the generator groups sequences of the same length into batches and
pads only within each such group: the padded width of every batch is the
length of the samples in that batch (not a global maximum), and every
embedding row of the batch has exactly that length. -/
theorem uniform_length_batches (d : List Sample) (g : List Sample)
    (hg : g ∈ epochGroups d) (s : Sample) (hs : s ∈ g) :
    (padBatch g).width = sampleLength s
      ∧ (∀ e ∈ (padBatch g).emb1, e.length = sampleLength s)
      ∧ (∀ e ∈ (padBatch g).emb2, e.length = sampleLength s) := by
  obtain ⟨l, hl⟩ := epochGroups_homogeneous d g hg
  have hw : batchWidth g = l :=
    batchWidth_of_homogeneous g l hl (by rintro rfl; simp at hs)
  have hsl : sampleLength s = l := hl s hs
  refine ⟨?_, ?_, ?_⟩
  · show batchWidth g = sampleLength s
    rw [hw, hsl]
  · intro e he
    simp only [padBatch, List.mem_map] at he
    obtain ⟨s', hs', rfl⟩ := he
    rw [hw, hsl]
    exact padTo_length l s'.text1
      (le_trans (Nat.le_max_left _ _) (le_of_eq (hl s' hs')))
  · intro e he
    simp only [padBatch, List.mem_map] at he
    obtain ⟨s', hs', rfl⟩ := he
    rw [hw, hsl]
    exact padTo_length l s'.text2
      (le_trans (Nat.le_max_right _ _) (le_of_eq (hl s' hs')))

/-- Witness for C1 at a concrete one-sample dataset. -/
theorem uniform_length_batches_witness :
    (padBatch [⟨[5], [7, 8], some 1⟩]).width = sampleLength ⟨[5], [7, 8], some 1⟩
      ∧ (∀ e ∈ (padBatch [⟨[5], [7, 8], some 1⟩]).emb1,
          e.length = sampleLength ⟨[5], [7, 8], some 1⟩)
      ∧ (∀ e ∈ (padBatch [⟨[5], [7, 8], some 1⟩]).emb2,
          e.length = sampleLength ⟨[5], [7, 8], some 1⟩) :=
  uniform_length_batches [⟨[5], [7, 8], some 1⟩] [⟨[5], [7, 8], some 1⟩]
    (by decide) ⟨[5], [7, 8], some 1⟩ (by decide)

/-- C2: the generator cycles for multiple epochs: with b batches per epoch,
the (i + b)-th batch it yields equals the i-th batch, embedding arrays and
labels alike. -/
theorem generator_cycles (d : List Sample) (i : Nat) :
    generatorBatch d (i + (epochBatches d).length) = generatorBatch d i := by
  unfold generatorBatch
  rw [Nat.add_mod_right]

/-- C3 as stated is false: on a concrete dataset of two same-length pairs the
repository's own generator groups both samples into a single batch, so its own
code does perform batching. -/
theorem no_own_batching_counterexample : ¬ frameworkOnlyBatchingAndPadding := by
  rintro ⟨h1, _⟩
  have h2 := h1 [⟨[1], [2, 3], some 1⟩, ⟨[4], [5, 6], some 0⟩]
      (padBatch [⟨[1], [2, 3], some 1⟩, ⟨[4], [5, 6], some 0⟩]) (by decide)
  exact absurd h2 (by decide)

/-- C3 amended: gradient descent aside, batching and padding of input
sequences are performed by the repository's own generator: it groups several
samples into one batch and emits padded sequences that are not among the input
sequences. -/
theorem generator_performs_batching_and_padding :
    ∃ b ∈ epochBatches [⟨[1], [2, 3], some 1⟩, ⟨[4], [5, 6], some 0⟩],
      1 < b.emb1.length
        ∧ ∃ e ∈ b.emb1, ∀ s ∈ ([⟨[1], [2, 3], some 1⟩, ⟨[4], [5, 6], some 0⟩] : List Sample),
            e ≠ s.text1 ∧ e ≠ s.text2 := by
  decide

/-- The frame a successful column selection returns has exactly the requested
columns. -/
theorem select_columns_ok_columns (df : DataFrame) (sel : List String) (d' : DataFrame)
    (hd : select_columns df sel = Except.ok d') : d'.columns = sel := by
  rw [select_columns] at hd
  by_cases hc : (sel.all fun c => decide (c ∈ df.columns)) = true
  · rw [if_pos hc] at hd
    cases hd
    rfl
  · rw [if_neg hc] at hd
    exact Except.noConfusion hd

/-- Column selection either succeeds or fails with a KeyError; it never raises
a ValueError. -/
theorem select_columns_cases (df : DataFrame) (sel : List String) :
    (∃ d', select_columns df sel = Except.ok d')
      ∨ select_columns df sel = Except.error FixColumnsError.keyError := by
  rw [select_columns]
  by_cases hc : (sel.all fun c => decide (c ∈ df.columns)) = true
  · exact Or.inl ⟨_, if_pos hc⟩
  · exact Or.inr (if_neg hc)

/-- C7: when `fix_columns` returns a frame, that frame has exactly the columns
text1, text2, label in that order when a label column is present after
renaming, and exactly text1, text2 when it is not. -/
theorem fix_columns_exact_columns (df : DataFrame) (a : ColumnArgs) (d' : DataFrame)
    (h : fix_columns df a = Except.ok d') :
    d'.columns
      = if label ∈ renamed_columns df a then [text_1, text_2, label]
        else [text_1, text_2] := by
  cases hm : missing_required_column df a with
  | some n =>
    have hfx : fix_columns df a = Except.error (FixColumnsError.valueError n) := by
      simp [fix_columns, hm]
    rw [hfx] at h
    exact Except.noConfusion h
  | none =>
    have hfx : fix_columns df a
        = select_columns { df with columns := renamed_columns df a }
            (if label ∈ renamed_columns df a then [text_1, text_2, label]
              else [text_1, text_2]) := by
      simp [fix_columns, hm]
    rw [hfx] at h
    exact select_columns_ok_columns _ _ _ h

/-- Witness for C7 at a concrete frame already carrying the expected
columns. -/
theorem fix_columns_exact_columns_witness :
    (⟨["text1", "text2", "label"], []⟩ : DataFrame).columns
      = if label ∈ renamed_columns ⟨["text1", "text2", "label"], []⟩ ⟨none, none, none⟩
        then [text_1, text_2, label] else [text_1, text_2] :=
  fix_columns_exact_columns ⟨["text1", "text2", "label"], []⟩ ⟨none, none, none⟩
    ⟨["text1", "text2", "label"], []⟩ (by rfl)

/-- A column fix-up finds no missing required column exactly when every
supplied column name is a column of the frame. -/
theorem missing_required_column_eq_none (df : DataFrame) (a : ColumnArgs) :
    missing_required_column df a = none ↔ ∀ n ∈ supplied_names a, n ∈ df.columns := by
  simp [missing_required_column, List.find?_eq_none]

/-- The missing column `fix_columns` reports is a supplied name absent from
the frame. -/
theorem missing_required_column_eq_some (df : DataFrame) (a : ColumnArgs) (m : String)
    (hm : missing_required_column df a = some m) :
    m ∈ supplied_names a ∧ m ∉ df.columns := by
  rw [missing_required_column] at hm
  have hp := List.find?_some hm
  simp only [decide_eq_true_eq] at hp
  exact ⟨List.mem_of_find?_eq_some hm, hp⟩

/-- Column selection succeeds exactly when every requested column is
present. -/
theorem select_columns_ok_iff (df : DataFrame) (sel : List String) :
    (∃ d', select_columns df sel = Except.ok d') ↔ ∀ c ∈ sel, c ∈ df.columns := by
  constructor
  · rintro ⟨d', hd⟩
    rw [select_columns] at hd
    by_cases hc : (sel.all fun c => decide (c ∈ df.columns)) = true
    · intro c hcc
      exact of_decide_eq_true (List.all_eq_true.mp hc c hcc)
    · rw [if_neg hc] at hd
      exact Except.noConfusion hd
  · intro hall
    have hc : (sel.all fun c => decide (c ∈ df.columns)) = true :=
      List.all_eq_true.mpr fun c hcc => decide_eq_true (hall c hcc)
    exact ⟨_, by rw [select_columns, if_pos hc]⟩

/-- C9 as stated is false: with a frame of columns a, b and `--text-1-name a`
supplied and present, `fix_columns` raises no ValueError yet does not return
normally either; the column selection fails with a pandas KeyError because
text2 is absent after renaming. -/
theorem fix_columns_keyerror_counterexample :
    (∀ n ∈ supplied_names ⟨some "a", none, none⟩,
        n ∈ (⟨["a", "b"], []⟩ : DataFrame).columns)
      ∧ fix_columns ⟨["a", "b"], []⟩ ⟨some "a", none, none⟩
        = Except.error FixColumnsError.keyError := by
  constructor
  · decide
  · rfl

/-- C9 amended: `fix_columns` raises ValueError iff some supplied non-None
column name is absent from the frame; and it returns normally iff no supplied
name is absent and, after renaming, every selected column (text1, text2, and
label when selected) is present. -/
theorem fix_columns_error_behavior (df : DataFrame) (a : ColumnArgs) :
    ((∃ n, fix_columns df a = Except.error (FixColumnsError.valueError n))
        ↔ ∃ n ∈ supplied_names a, n ∉ df.columns)
      ∧ ((∃ d', fix_columns df a = Except.ok d')
        ↔ (∀ n ∈ supplied_names a, n ∈ df.columns)
          ∧ ∀ c ∈ (if label ∈ renamed_columns df a then [text_1, text_2, label]
              else [text_1, text_2]), c ∈ renamed_columns df a) := by
  cases hm : missing_required_column df a with
  | some m =>
    obtain ⟨hmem, hmiss⟩ := missing_required_column_eq_some df a m hm
    have hfx : fix_columns df a = Except.error (FixColumnsError.valueError m) := by
      simp [fix_columns, hm]
    constructor
    · exact ⟨fun _ => ⟨m, hmem, hmiss⟩, fun _ => ⟨m, hfx⟩⟩
    · constructor
      · rintro ⟨d', hd⟩
        rw [hfx] at hd
        exact Except.noConfusion hd
      · rintro ⟨hall, _⟩
        exact absurd (hall m hmem) hmiss
  | none =>
    have hall := (missing_required_column_eq_none df a).mp hm
    have hfx : fix_columns df a
        = select_columns { df with columns := renamed_columns df a }
            (if label ∈ renamed_columns df a then [text_1, text_2, label]
              else [text_1, text_2]) := by
      simp [fix_columns, hm]
    constructor
    · constructor
      · rintro ⟨n, hn⟩
        rw [hfx] at hn
        rcases select_columns_cases { df with columns := renamed_columns df a }
            (if label ∈ renamed_columns df a then [text_1, text_2, label]
              else [text_1, text_2]) with ⟨d', hd⟩ | herr
        · rw [hd] at hn
          exact Except.noConfusion hn
        · rw [herr] at hn
          injection hn with h2
          exact FixColumnsError.noConfusion h2
      · rintro ⟨n, hmem, hmiss⟩
        exact absurd (hall n hmem) hmiss
    · rw [hfx]
      constructor
      · rintro ⟨d', hd⟩
        refine ⟨hall, ?_⟩
        have hsub := (select_columns_ok_iff { df with columns := renamed_columns df a }
            (if label ∈ renamed_columns df a then [text_1, text_2, label]
              else [text_1, text_2])).mp ⟨d', hd⟩
        exact fun c hc => hsub c hc
      · rintro ⟨_, hsel⟩
        obtain ⟨d', hd⟩ := (select_columns_ok_iff { df with columns := renamed_columns df a }
            (if label ∈ renamed_columns df a then [text_1, text_2, label]
              else [text_1, text_2])).mpr (fun c hc => hsel c hc)
        exact ⟨d', hd⟩

end Bisemantic
